import Mathlib

/-!
Verification of the SyncChess rule engine.

This file is a shallow embedding of the SyncChess sources:
  * `src/boardUtils.js` (starting position, game-state record),
  * `src/gameLogic.js` (legality checker, attack probe, check / checkmate /
    stalemate detection, castling execution, the simultaneous round-resolution
    algorithm `processMoves`, timer-flag bookkeeping), and
  * the server socket handlers `submitMove` / `promotePawn` in `server.js`.

Modelling conventions:
  * A JS piece string such as `"wPe"` or `"bR1"` is a `Piece` record: first
    character → `color`, second character → `ptype`, remaining suffix → `pid`
    (the persistent identity token).  JS `===` on piece strings is `Piece`
    equality.
  * A JS board (8×8 array of piece strings / `null`, indexed
    `board[rank][file]` with rank 0 = chess rank 8) is a total function
    `Int → Int → Option Piece`; concrete boards are `none` off the 0..7 range.
    Mutation `board[r][f] = v` is the functional update `setSq`.
  * A JS algebraic square string is its coordinate pair `Sq` (the JS
    `squareToCoords` image); string comparison of valid squares is `Sq`
    equality.
  * The mutual recursion isLegalMove → isInCheck → isSquareUnderAttack →
    isLegalMove terminates in the source because the attack probe passes a
    dummy game state whose castling-rights lookups fail, so the castling
    branch (the only recursive one) exits early.  The embedding makes this
    explicit with a fuel parameter; fuel 2 reproduces the source exactly.
  * Wall-clock timer state (`timers.white/black/lastUpdate`, `Date.now()`) is
    real time and is not modelled; the Boolean timer-activity flags
    (`whiteActive`, `blackActive`, `timerRunning`), which the logic does
    manipulate, are modelled.
  * Socket emissions are modelled as the returned outcome value; state
    mutation is modelled by returning the updated `Game`.
-/

/-- Piece color: the first character of a JS piece string. -/
inductive Color where
  | w
  | b
deriving DecidableEq, Repr

/-- Piece kind: the second character of a JS piece string. -/
inductive PType where
  | P
  | R
  | N
  | B
  | Q
  | K
deriving DecidableEq, Repr

/-- A piece string, split into color, kind and the identity suffix
(`"wPe" = ⟨w, P, "e"⟩`). -/
structure Piece where
  color : Color
  ptype : PType
  pid : String
deriving DecidableEq, Repr

/-- Board coordinates as produced by the JS `squareToCoords`:
`rank = 8 - numericRank` (so rank 0 is chess rank 8), `file = letter - 97`. -/
structure Sq where
  rank : Int
  file : Int
deriving DecidableEq, Repr

/-- The JS 2D board array `board[rank][file]`, as a total function.
Concrete boards are `none` outside 0..7. -/
def Board : Type := Int → Int → Option Piece

/-- Functional update modelling the JS assignment `board[r][f] = v`. -/
def setSq (bd : Board) (r f : Int) (v : Option Piece) : Board :=
  fun r2 f2 => if r2 = r ∧ f2 = f then v else bd r2 f2

/-- A submitted move `{from, to, promotion?, promotedPieceId?}`.  The two
promotion fields are absent (`none`) until `promotePawn` fills them. -/
structure Move where
  fromSq : Sq
  toSq : Sq
  promotion : Option PType
  promotedPieceId : Option Piece
deriving DecidableEq, Repr

/-- Castling rights for one color (`castlingRights.white` etc.). -/
structure CastleRights where
  kingSide : Bool
  queenSide : Bool
deriving DecidableEq, Repr

/-- The part of the game state read by `isLegalMove` (its `gameState`
argument): castling rights and the en-passant target square. -/
structure Ctx where
  castlingWhite : CastleRights
  castlingBlack : CastleRights
  enPassantTarget : Option Sq
deriving DecidableEq, Repr

/-- The dummy game state used by `isSquareUnderAttack`:
`{ castlingRights: { white: {}, black: {} }, enPassantTarget: null }`.
Its castling-rights fields are absent in JS, so every `.kingSide` /
`.queenSide` read is falsy; the model uses `false` flags. -/
def dummyCtx : Ctx :=
  { castlingWhite := ⟨false, false⟩
    castlingBlack := ⟨false, false⟩
    enPassantTarget := none }

/-- Rights of one color inside a `Ctx` (`gameState.castlingRights[colorName]`). -/
def ctxRights (gs : Ctx) (c : Color) : CastleRights :=
  match c with
  | .w => gs.castlingWhite
  | .b => gs.castlingBlack

/-- Opponent color. -/
def Color.opp : Color → Color
  | .w => .b
  | .b => .w

/-- Truthy test `destPiece && destPiece[0] === color`. -/
def pieceHasColor (o : Option Piece) (c : Color) : Bool :=
  match o with
  | some p => p.color = c
  | none => false

/-- Truthy test `piece && piece[1] === t`. -/
def pieceIsType (o : Option Piece) (t : PType) : Bool :=
  match o with
  | some p => p.ptype = t
  | none => false

/-- All 64 board coordinates in the JS double-loop order
(`for rank in 0..7 { for file in 0..7 }`). -/
def coordList : List (Int × Int) :=
  (List.range 8).flatMap fun r => (List.range 8).map fun f => ((r : Int), (f : Int))

/-- Rook/queen path walk of `isLegalMove`: steps from `(r, f)` by
`(rs, fs)` until both coordinates hit the target (`while (r !== tr || f !== tf)`),
failing when an occupied square is crossed.  The JS loop is bounded by the
geometric preconditions; fuel 8 is always enough there. -/
def walkClearRQ (bd : Board) : Int → Int → Int → Int → Int → Int → Nat → Bool
  | _, _, _, _, _, _, 0 => true
  | r, f, tr, tf, rs, fs, n + 1 =>
    if r = tr ∧ f = tf then true
    else if (bd r f).isSome then false
    else walkClearRQ bd (r + rs) (f + fs) tr tf rs fs n

/-- Bishop path walk: identical but stops as soon as either coordinate hits
the target (`while (rDiag !== tr && fDiag !== tf)`). -/
def walkClearDiag (bd : Board) : Int → Int → Int → Int → Int → Int → Nat → Bool
  | _, _, _, _, _, _, 0 => true
  | r, f, tr, tf, rs, fs, n + 1 =>
    if r = tr ∨ f = tf then true
    else if (bd r f).isSome then false
    else walkClearDiag bd (r + rs) (f + fs) tr tf rs fs n

/-- Scan of `isSquareUnderAttack`, parameterized by the legality check used
for the probe: some piece of `atk` has a probe-legal move to `sq`, probing
with the dummy game state (castling and en passant disabled). -/
def attackScanWith (leg : Board → Sq → Sq → Color → PType → Ctx → Bool)
    (bd : Board) (sq : Sq) (atk : Color) : Bool :=
  coordList.any fun rf =>
    match bd rf.1 rf.2 with
    | some p => decide (p.color = atk) && leg bd ⟨rf.1, rf.2⟩ sq atk p.ptype dummyCtx
    | none => false

/-- The JS `findKing`: first square (in scan order) holding `c`'s king. -/
def findKing (bd : Board) (c : Color) : Option Sq :=
  (coordList.find? fun rf =>
    match bd rf.1 rf.2 with
    | some p => decide (p.color = c) && decide (p.ptype = .K)
    | none => false).map fun rf => ⟨rf.1, rf.2⟩

/-- The JS `isInCheck`, parameterized by the legality probe: the king exists
and its square is attacked by the opponent.  A color with no king is never
in check. -/
def isInCheckWith (leg : Board → Sq → Sq → Color → PType → Ctx → Bool)
    (bd : Board) (c : Color) : Bool :=
  match findKing bd c with
  | none => false
  | some ks => attackScanWith leg bd ks c.opp

/-- The JS match target `gameState.enPassantTarget` comparison inside the
pawn branch. -/
def epTargetIs (gs : Ctx) (ts : Sq) : Bool :=
  match gs.enPassantTarget with
  | some ep => decide (ts.rank = ep.rank ∧ ts.file = ep.file)
  | none => false

/-- The JS `isLegalMove(board, from, to, piece, gameState)` with explicit
recursion fuel.  `piece` is the two-character basic piece code, split here
into `c` (color) and `t` (kind).  The only recursive calls are the
`isInCheck` / `isSquareUnderAttack` probes inside the castling branch; they
run with one unit less fuel, which reproduces the source because the probe
context disables castling and therefore never recurses further. -/
def isLegalMoveAux : Nat → Board → Sq → Sq → Color → PType → Ctx → Bool
  | 0, _, _, _, _, _, _ => false
  | n + 1, bd, fr, ts, c, t, gs =>
    let destPiece := bd ts.rank ts.file
    if pieceHasColor destPiece c then false
    else
      let rankDiff := ts.rank - fr.rank
      let fileDiff := ts.file - fr.file
      match t with
      | .P =>
        let direction : Int := if c = .w then -1 else 1
        let startRank : Int := if c = .w then 6 else 1
        if fileDiff = 0 ∧ destPiece = none ∧ rankDiff = direction then true
        else if fileDiff = 0 ∧ destPiece = none ∧ rankDiff = 2 * direction ∧
            fr.rank = startRank ∧ bd (fr.rank + direction) fr.file = none then true
        else if fileDiff.natAbs = 1 ∧ rankDiff = direction ∧ destPiece.isSome then true
        else if fileDiff.natAbs = 1 ∧ rankDiff = direction ∧ destPiece = none ∧
            epTargetIs gs ts then true
        else false
      | .R =>
        if rankDiff ≠ 0 ∧ fileDiff ≠ 0 then false
        else walkClearRQ bd (fr.rank + rankDiff.sign) (fr.file + fileDiff.sign)
          ts.rank ts.file rankDiff.sign fileDiff.sign 8
      | .N =>
        decide ((rankDiff.natAbs = 2 ∧ fileDiff.natAbs = 1) ∨
          (rankDiff.natAbs = 1 ∧ fileDiff.natAbs = 2))
      | .B =>
        if rankDiff.natAbs ≠ fileDiff.natAbs then false
        else walkClearDiag bd (fr.rank + rankDiff.sign) (fr.file + fileDiff.sign)
          ts.rank ts.file rankDiff.sign fileDiff.sign 8
      | .Q =>
        if ¬(rankDiff.natAbs = fileDiff.natAbs ∨ rankDiff = 0 ∨ fileDiff = 0) then false
        else walkClearRQ bd (fr.rank + rankDiff.sign) (fr.file + fileDiff.sign)
          ts.rank ts.file rankDiff.sign fileDiff.sign 8
      | .K =>
        if rankDiff.natAbs ≤ 1 ∧ fileDiff.natAbs ≤ 1 then true
        else if rankDiff = 0 ∧ fileDiff.natAbs = 2 then
          let rights := ctxRights gs c
          let isKingside := fileDiff > 0
          if isKingside ∧ rights.kingSide = false then false
          else if ¬isKingside ∧ rights.queenSide = false then false
          else if isInCheckWith (isLegalMoveAux n) bd c then false
          else if isKingside then
            if (bd fr.rank 5).isSome ∨ (bd fr.rank 6).isSome then false
            else if attackScanWith (isLegalMoveAux n) bd ⟨fr.rank, 5⟩ c.opp then false
            else true
          else
            if (bd fr.rank 1).isSome ∨ (bd fr.rank 2).isSome ∨ (bd fr.rank 3).isSome then false
            else if attackScanWith (isLegalMoveAux n) bd ⟨fr.rank, 3⟩ c.opp then false
            else true
        else false

/-- The exported `isLegalMove`.  Fuel 2 reproduces the source: a top-level
call may enter the castling branch once; its probes run under the dummy
context, where the castling branch exits at the rights check without
recursing. -/
def isLegalMove (bd : Board) (fr ts : Sq) (c : Color) (t : PType) (gs : Ctx) : Bool :=
  isLegalMoveAux 2 bd fr ts c t gs

/-- The exported `isSquareUnderAttack(board, square, attackerColor)`. -/
def isSquareUnderAttack (bd : Board) (sq : Sq) (atk : Color) : Bool :=
  attackScanWith (isLegalMoveAux 1) bd sq atk

/-- The exported `isInCheck(board, color)`. -/
def isInCheck (bd : Board) (c : Color) : Bool :=
  isInCheckWith (isLegalMoveAux 1) bd c

/-- The JS `doesKingExist`. -/
def doesKingExist (bd : Board) (c : Color) : Bool :=
  (findKing bd c).isSome

/-- Terminal result values (`'whiteWins' | 'blackWins' | 'draw'`). -/
inductive GameResult where
  | whiteWins
  | blackWins
  | draw
deriving DecidableEq, Repr

/-- One `moveHistory` entry pushed by `processMoves`. -/
structure RoundRecord where
  whiteFrom : Sq
  whiteTo : Sq
  whitePieceMoved : Option Piece
  whitePromotion : Option PType
  blackFrom : Sq
  blackTo : Sq
  blackPieceMoved : Option Piece
  blackPromotion : Option PType
deriving DecidableEq, Repr

/-- The per-room `GameState` record of `createGameState`, restricted to the
fields the rule engine reads or writes.  The JS square→string `position` map
is carried directly as its `Board` image (the `positionToBoard` /
`boardToPosition` round-trip).  The numeric wall-clock timer values and the
socket-id fields are not modelled (see the header). -/
structure Game where
  position : Board
  pendingWhite : Option Move
  pendingBlack : Option Move
  lastMovedWhite : Option Piece
  lastMovedBlack : Option Piece
  lastMoveWhite : Option Move
  lastMoveBlack : Option Move
  inCheckWhite : Bool
  inCheckBlack : Bool
  castlingWhite : CastleRights
  castlingBlack : CastleRights
  enPassantTarget : Option Sq
  moveHistory : List RoundRecord
  timerRunning : Bool
  whiteActive : Bool
  blackActive : Bool
  gameStarted : Bool
  kingMovedWhite : Bool
  kingMovedBlack : Bool
  rookMovedWA1 : Bool
  rookMovedWH1 : Bool
  rookMovedBA8 : Bool
  rookMovedBH8 : Bool
  gameResult : Option GameResult

/-- The `gameState` view handed to `isLegalMove` when the server passes the
whole game object. -/
def Game.ctx (g : Game) : Ctx :=
  { castlingWhite := g.castlingWhite
    castlingBlack := g.castlingBlack
    enPassantTarget := g.enPassantTarget }

/-- Pending move of a color. -/
def pendingOf (g : Game) : Color → Option Move
  | .w => g.pendingWhite
  | .b => g.pendingBlack

/-- Last moved piece identity of a color (`game.lastMovedPieces[colorName]`). -/
def lastMovedOf (g : Game) : Color → Option Piece
  | .w => g.lastMovedWhite
  | .b => g.lastMovedBlack

/-- Stored check flag of a color (`game.inCheck[colorName]`). -/
def inCheckOf (g : Game) : Color → Bool
  | .w => g.inCheckWhite
  | .b => g.inCheckBlack

/-- Store a pending move for a color. -/
def setPending (g : Game) (c : Color) (m : Move) : Game :=
  match c with
  | .w => { g with pendingWhite := some m }
  | .b => { g with pendingBlack := some m }

/-- Square literals used by the castling-rights bookkeeping. -/
def sqA1 : Sq := ⟨7, 0⟩

/-- Square literal h1. -/
def sqH1 : Sq := ⟨7, 7⟩

/-- Square literal a8. -/
def sqA8 : Sq := ⟨0, 0⟩

/-- Square literal h8. -/
def sqH8 : Sq := ⟨0, 7⟩

/-- The JS `handleCastling(board, color, move)`: relocates the king to the
move target and the rook of the corresponding side from its home file to the
crossed file, on the rank of the king's source square.  As in the source, the
rook is read after the king has been written. -/
def handleCastling (bd : Board) (c : Color) (m : Move) : Board :=
  let fr := m.fromSq
  let ts := m.toSq
  let isKingside := ts.file > fr.file
  let b1 := setSq bd fr.rank fr.file none
  let b2 := setSq b1 ts.rank ts.file (some ⟨c, .K, ""⟩)
  if isKingside then
    let rookPiece := b2 fr.rank 7
    setSq (setSq b2 fr.rank 7 none) fr.rank 5 rookPiece
  else
    let rookPiece := b2 fr.rank 0
    setSq (setSq b2 fr.rank 0 none) fr.rank 3 rookPiece

/-- The JS `isCheckmate(board, color, gameState)`: in check, and every
`(from, to)` pair that `isLegalMove` accepts for a piece of this color still
leaves the color in check after the naive move (source off, piece onto
target). -/
def isCheckmate (bd : Board) (c : Color) (gs : Ctx) : Bool :=
  if ¬ isInCheck bd c then false
  else
    ! (coordList.any fun rf =>
        match bd rf.1 rf.2 with
        | some p => decide (p.color = c) &&
            (coordList.any fun rf2 =>
              isLegalMove bd ⟨rf.1, rf.2⟩ ⟨rf2.1, rf2.2⟩ p.color p.ptype gs &&
              ! isInCheck (setSq (setSq bd rf.1 rf.2 none) rf2.1 rf2.2 (some p)) c)
        | none => false)

/-- The JS `isStalemate(board, color, gameState)`: not in check, and no
`(from, to)` pair (source square skipped) gives a legal move whose naive
application leaves the color out of check. -/
def isStalemate (bd : Board) (c : Color) (gs : Ctx) : Bool :=
  if isInCheck bd c then false
  else
    ! (coordList.any fun rf =>
        match bd rf.1 rf.2 with
        | some p => decide (p.color = c) &&
            (coordList.any fun rf2 =>
              decide (¬(rf.1 = rf2.1 ∧ rf.2 = rf2.2)) &&
              isLegalMove bd ⟨rf.1, rf.2⟩ ⟨rf2.1, rf2.2⟩ p.color p.ptype gs &&
              ! isInCheck (setSq (setSq bd rf.1 rf.2 none) rf2.1 rf2.2 (some p)) c)
        | none => false)

/-- The JS `checkTimerStatus(game)`: which timer-activity flags run, given
the stored result and the pending moves. -/
def checkTimerStatus (g : Game) : Game :=
  if g.gameResult.isSome then
    { g with whiteActive := false, blackActive := false, timerRunning := false }
  else if g.pendingWhite.isSome ∧ g.pendingBlack.isSome then
    { g with whiteActive := false, blackActive := false }
  else if g.pendingWhite.isSome ∧ ¬ g.pendingBlack.isSome then
    { g with whiteActive := false, blackActive := true }
  else if ¬ g.pendingWhite.isSome ∧ g.pendingBlack.isSome then
    { g with whiteActive := true, blackActive := false }
  else
    { g with whiteActive := true, blackActive := true }

/-- The promoted piece id computed by `processMoves`:
`whiteMove.promotedPieceId || (color + promotion + piece.substring(2))`,
taken only when the move carries a promotion. -/
def promotedPieceOf (c : Color) (m : Move) (p : Option Piece) : Option Piece :=
  match m.promotion with
  | none => p
  | some pt =>
    match m.promotedPieceId with
    | some pp => some pp
    | none =>
      match p with
      | some q => some ⟨c, pt, q.pid⟩
      | none => none

/-- Castling-execution phase of `processMoves`: for each side whose piece at
the source is a king shifted two files, run `handleCastling` (white first,
then black); conditions are evaluated against the pre-round `board`. -/
def castlingPhase (board : Board) (wM bM : Move) : Board :=
  let whitePiece := board wM.fromSq.rank wM.fromSq.file
  let blackPiece := board bM.fromSq.rank bM.fromSq.file
  let nb1 :=
    if pieceIsType whitePiece .K ∧ (wM.fromSq.file - wM.toSq.file).natAbs = 2 then
      handleCastling board .w wM
    else board
  if pieceIsType blackPiece .K ∧ (bM.fromSq.file - bM.toSq.file).natAbs = 2 then
    handleCastling nb1 .b bM
  else nb1

/-- En-passant capture phase of `processMoves`: a pawn moving one file onto
an empty square of the capture rank removes the pawn one rank behind the
destination.  Conditions read the pre-round `board`; removals are applied to
the working board `nb`. -/
def epCapturePhase (board nb : Board) (wM bM : Move) : Board :=
  let whitePiece := board wM.fromSq.rank wM.fromSq.file
  let blackPiece := board bM.fromSq.rank bM.fromSq.file
  let nb3 :=
    if pieceIsType whitePiece .P ∧ (wM.fromSq.file - wM.toSq.file).natAbs = 1 ∧
        wM.toSq.rank = 2 ∧ board wM.toSq.rank wM.toSq.file = none then
      setSq nb (wM.toSq.rank + 1) wM.toSq.file none
    else nb
  if pieceIsType blackPiece .P ∧ (bM.fromSq.file - bM.toSq.file).natAbs = 1 ∧
      bM.toSq.rank = 5 ∧ board bM.toSq.rank bM.toSq.file = none then
    setSq nb3 (bM.toSq.rank - 1) bM.toSq.file none
  else nb3

/-- Source-vacating phase of `processMoves`: both source squares are emptied
(the guard compares the pre-round board against itself, as in the source,
and is always taken). -/
def vacatePhase (board nb : Board) (wM bM : Move) : Board :=
  let whitePiece := board wM.fromSq.rank wM.fromSq.file
  let blackPiece := board bM.fromSq.rank bM.fromSq.file
  let nb5 :=
    if board wM.fromSq.rank wM.fromSq.file = whitePiece then
      setSq nb wM.fromSq.rank wM.fromSq.file none
    else nb
  if board bM.fromSq.rank bM.fromSq.file = blackPiece then
    setSq nb5 bM.fromSq.rank bM.fromSq.file none
  else nb5

/-- Collision / swerve phase of `processMoves`: identical destinations place
nothing (collision); otherwise each side's placement branch runs — the
swerve branch when the pre-round occupant of the destination is the very
piece the opponent moves away, and the plain branch when the destination is
empty or holds an opposing piece. -/
def destinationPhase (board nb : Board) (wM bM : Move) : Board :=
  let whitePiece := board wM.fromSq.rank wM.fromSq.file
  let blackPiece := board bM.fromSq.rank bM.fromSq.file
  let promotedWhitePiece := promotedPieceOf .w wM whitePiece
  let promotedBlackPiece := promotedPieceOf .b bM blackPiece
  if wM.toSq = bM.toSq then nb
  else
    let nbA :=
      if board wM.toSq.rank wM.toSq.file = blackPiece ∧ ¬ (bM.fromSq = bM.toSq) then
        setSq nb wM.toSq.rank wM.toSq.file promotedWhitePiece
      else if board wM.toSq.rank wM.toSq.file = none ∨
          pieceHasColor (board wM.toSq.rank wM.toSq.file) .b then
        setSq nb wM.toSq.rank wM.toSq.file promotedWhitePiece
      else nb
    if board bM.toSq.rank bM.toSq.file = whitePiece ∧ ¬ (wM.fromSq = wM.toSq) then
      setSq nbA bM.toSq.rank bM.toSq.file promotedBlackPiece
    else if board bM.toSq.rank bM.toSq.file = none ∨
        pieceHasColor (board bM.toSq.rank bM.toSq.file) .w then
      setSq nbA bM.toSq.rank bM.toSq.file promotedBlackPiece
    else nbA

/-- The board produced by one `processMoves` call: the phases above composed
in source order (castling, en-passant captures, vacating, collision /
swerve). -/
def processBoard (board : Board) (wM bM : Move) : Board :=
  destinationPhase board
    (vacatePhase board
      (epCapturePhase board (castlingPhase board wM bM) wM bM) wM bM) wM bM

/-- The JS `processMoves(game)`, with the two pending moves passed
explicitly (the source reads them from `game.pendingMoves`, which the caller
guarantees are both present).  Returns the mutated game; the function's JS
return value `{position, inCheck, gameResult}` is recoverable from the
returned record. -/
def processMoves (g : Game) (wM bM : Move) : Game :=
  let board := g.position
  let wFrom := wM.fromSq
  let wTo := wM.toSq
  let bFrom := bM.fromSq
  let bTo := bM.toSq
  let whitePiece := board wFrom.rank wFrom.file
  let blackPiece := board bFrom.rank bFrom.file
  let promotedWhitePiece := promotedPieceOf .w wM whitePiece
  let promotedBlackPiece := promotedPieceOf .b bM blackPiece
  -- en-passant target bookkeeping (reset, then per-side double advance)
  let ep1 : Option Sq :=
    if pieceIsType whitePiece .P ∧ (wFrom.rank - wTo.rank).natAbs = 2 then
      some ⟨wFrom.rank - 1, wFrom.file⟩
    else none
  let ep2 : Option Sq :=
    if pieceIsType blackPiece .P ∧ (bFrom.rank - bTo.rank).natAbs = 2 then
      some ⟨bFrom.rank + 1, bFrom.file⟩
    else ep1
  -- collision result (both destinations identical)
  let collisionResult : Option GameResult :=
    if wTo = bTo then
      let r1 := if pieceIsType whitePiece .K then some GameResult.blackWins else none
      let r2 := if pieceIsType blackPiece .K then some GameResult.whiteWins else r1
      if pieceIsType whitePiece .K ∧ pieceIsType blackPiece .K then
        some GameResult.draw
      else r2
    else none
  -- the resulting board (castling, en-passant captures, vacate, collision/swerve)
  let nb7 := processBoard board wM bM
  -- castling-rights bookkeeping  -- castling-rights bookkeeping
  let wkMoved := pieceIsType whitePiece .K
  let bkMoved := pieceIsType blackPiece .K
  let cw1 := if wkMoved then (⟨false, false⟩ : CastleRights) else g.castlingWhite
  let cb1 := if bkMoved then (⟨false, false⟩ : CastleRights) else g.castlingBlack
  let cw2 :=
    if pieceIsType whitePiece .R ∧ wM.fromSq = sqA1 then { cw1 with queenSide := false }
    else if pieceIsType whitePiece .R ∧ wM.fromSq = sqH1 then { cw1 with kingSide := false }
    else cw1
  let cb2 :=
    if pieceIsType blackPiece .R ∧ bM.fromSq = sqA8 then { cb1 with queenSide := false }
    else if pieceIsType blackPiece .R ∧ bM.fromSq = sqH8 then { cb1 with kingSide := false }
    else cb1
  let cb3 :=
    if pieceIsType (board wTo.rank wTo.file) .R ∧ wM.toSq = sqA8 then
      { cb2 with queenSide := false }
    else cb2
  let cb4 :=
    if pieceIsType (board wTo.rank wTo.file) .R ∧ wM.toSq = sqH8 then
      { cb3 with kingSide := false }
    else cb3
  let cw3 :=
    if pieceIsType (board bTo.rank bTo.file) .R ∧ bM.toSq = sqA1 then
      { cw2 with queenSide := false }
    else cw2
  let cw4 :=
    if pieceIsType (board bTo.rank bTo.file) .R ∧ bM.toSq = sqH1 then
      { cw3 with kingSide := false }
    else cw3
  let inW := isInCheck nb7 .w
  let inB := isInCheck nb7 .b
  let g1 : Game :=
    { g with
      position := nb7
      enPassantTarget := ep2
      castlingWhite := cw4
      castlingBlack := cb4
      kingMovedWhite := if wkMoved then true else g.kingMovedWhite
      kingMovedBlack := if bkMoved then true else g.kingMovedBlack
      rookMovedWA1 :=
        if pieceIsType whitePiece .R ∧ wM.fromSq = sqA1 then true else g.rookMovedWA1
      rookMovedWH1 :=
        if pieceIsType whitePiece .R ∧ wM.fromSq = sqH1 then true else g.rookMovedWH1
      rookMovedBA8 :=
        if pieceIsType blackPiece .R ∧ bM.fromSq = sqA8 then true else g.rookMovedBA8
      rookMovedBH8 :=
        if pieceIsType blackPiece .R ∧ bM.fromSq = sqH8 then true else g.rookMovedBH8
      moveHistory := g.moveHistory ++
        [{ whiteFrom := wFrom, whiteTo := wTo, whitePieceMoved := whitePiece
           whitePromotion := wM.promotion
           blackFrom := bFrom, blackTo := bTo, blackPieceMoved := blackPiece
           blackPromotion := bM.promotion }]
      lastMovedWhite := promotedWhitePiece
      lastMovedBlack := promotedBlackPiece
      lastMoveWhite := some wM
      lastMoveBlack := some bM
      inCheckWhite := inW
      inCheckBlack := inB }
  let whiteKingExists := doesKingExist nb7 .w
  let blackKingExists := doesKingExist nb7 .b
  let res1 : Option GameResult :=
    match collisionResult with
    | some r => some r
    | none =>
      if ¬ whiteKingExists ∧ ¬ blackKingExists then some .draw
      else if ¬ whiteKingExists then some .blackWins
      else if ¬ blackKingExists then some .whiteWins
      else none
  let res2 : Option GameResult :=
    match res1 with
    | some r => some r
    | none =>
      if inW ∧ isCheckmate nb7 .w g1.ctx then some .blackWins
      else if inB ∧ isCheckmate nb7 .b g1.ctx then some .whiteWins
      else if inW ∧ inB ∧ isCheckmate nb7 .w g1.ctx ∧ isCheckmate nb7 .b g1.ctx then
        some .draw
      else none
  let res3 : Option GameResult :=
    match res2 with
    | some r => some r
    | none =>
      let whiteStalemated := whiteKingExists ∧ inW = false ∧ isStalemate nb7 .w g1.ctx
      let blackStalemated := blackKingExists ∧ inB = false ∧ isStalemate nb7 .b g1.ctx
      if whiteStalemated ∧ blackStalemated then some .draw
      else if whiteStalemated then some .draw
      else if blackStalemated then some .draw
      else none
  { g1 with
    gameResult := res3
    timerRunning := if res3.isSome then false else g1.timerRunning
    whiteActive := if res3.isSome then false else g1.whiteActive
    blackActive := if res3.isSome then false else g1.blackActive }

/-- Outcome of the `submitMove` socket handler: the error emissions, the
promotion round-trip request, acceptance while waiting for the partner, and
acceptance that triggered round resolution. -/
inductive SubmitOutcome where
  | errNoPiece
  | errNotYourPiece
  | errRepeat
  | errIllegal
  | errStillCheck
  | promotionNeeded
  | accepted
  | resolved
deriving DecidableEq, Repr

/-- Exception (3) of the repeat-piece gate in `submitMove`: some piece of
this color other than `piece` has a move that `isLegalMove` accepts (no
self-check filtering). -/
def hasOtherValidMoves (bd : Board) (c : Color) (piece : Piece) (gs : Ctx) : Bool :=
  coordList.any fun rf =>
    match bd rf.1 rf.2 with
    | some cp => decide (cp.color = c) && decide (¬ cp = piece) &&
        (coordList.any fun rf2 =>
          isLegalMove bd ⟨rf.1, rf.2⟩ ⟨rf2.1, rf2.2⟩ cp.color cp.ptype gs)
    | none => false

/-- Tail of the `submitMove` handler, from the `isLegalMove` validation
onward: geometric legality, the must-resolve-check test (run only while the
stored check flag of `c` is set), promotion-rank detection (which stores the
pending move and asks the client for a choice), and otherwise storing the
pending move, updating the timer flags, and resolving the round when both
pending moves are present.  `g` is the state with `gameStarted` already set
and `piece` the piece found at the move's source. -/
def submitFinish (g : Game) (c : Color) (m : Move) (piece : Piece) :
    Game × SubmitOutcome :=
  if ¬ isLegalMove g.position m.fromSq m.toSq piece.color piece.ptype g.ctx then
    (g, .errIllegal)
  else
    let stillCheck : Bool :=
      if inCheckOf g c then
        isInCheck
          (setSq (setSq g.position m.fromSq.rank m.fromSq.file none)
            m.toSq.rank m.toSq.file (some piece)) c
      else false
    if stillCheck then (g, .errStillCheck)
    else
      let isPawnPromotion := decide (piece.ptype = .P) &&
        ((decide (c = .w) && decide (m.toSq.rank = 0)) ||
         (decide (c = .b) && decide (m.toSq.rank = 7)))
      if isPawnPromotion then (setPending g c m, .promotionNeeded)
      else
        let g1 := setPending g c m
        let g2 := checkTimerStatus g1
        match g2.pendingWhite, g2.pendingBlack with
        | some wMv, some bMv =>
          let g3 := processMoves g2 wMv bMv
          ({ g3 with
              pendingWhite := none, pendingBlack := none,
              whiteActive := true, blackActive := true }, .resolved)
        | _, _ => (g2, .accepted)

/-- The `socket.on('submitMove')` handler, for a caller already resolved to
`c` (the room/identity lookups are transport concerns).  Mirrors the source
order: mark the game started, piece-at-source check, color check, the
repeat-piece gate with its exceptions, then `submitFinish` for the
remaining validation, storage and resolution steps. -/
def submitMove (g0 : Game) (c : Color) (m : Move) : Game × SubmitOutcome :=
  let g := { g0 with gameStarted := true }
  let board := g.position
  match board m.fromSq.rank m.fromSq.file with
  | none => (g, .errNoPiece)
  | some piece =>
    if ¬ piece.color = c then (g, .errNotYourPiece)
    else
      let repeatBlocked : Bool :=
        if lastMovedOf g c = some piece then
          let kingExceptionApplies := decide (piece.ptype = .K) && inCheckOf g c
          let hasOther :=
            if kingExceptionApplies then false
            else hasOtherValidMoves board c piece g.ctx
          ! (kingExceptionApplies || ! hasOther)
        else false
      if repeatBlocked then (g, .errRepeat)
      else submitFinish g c m piece

/-- Outcome of the `promotePawn` socket handler. -/
inductive PromoteOutcome where
  | errInvalidType
  | errNoPending
  | errSquareMismatch
  | errNoPawn
  | errWrongRank
  | confirmed
  | resolvedByPromotion
deriving DecidableEq, Repr

/-- The `socket.on('promotePawn')` handler for a caller resolved to `c`:
validates the piece type, the pending move, the square, the pawn at the
pending source, and the promotion rank; then attaches the promotion choice
to the pending move and resolves the round when both moves are stored. -/
def promotePawn (g : Game) (c : Color) (sq : Sq) (pt : PType) : Game × PromoteOutcome :=
  if ¬ (pt = .Q ∨ pt = .R ∨ pt = .N ∨ pt = .B) then (g, .errInvalidType)
  else
    match pendingOf g c with
    | none => (g, .errNoPending)
    | some pm =>
      if ¬ pm.toSq = sq then (g, .errSquareMismatch)
      else
        match g.position pm.fromSq.rank pm.fromSq.file with
        | none => (g, .errNoPawn)
        | some p =>
          if ¬ (p.color = c ∧ p.ptype = .P) then (g, .errNoPawn)
          else if ¬ ((c = .w ∧ sq.rank = 0) ∨ (c = .b ∧ sq.rank = 7)) then
            (g, .errWrongRank)
          else
            let pm2 := { pm with
                         promotion := some pt,
                         promotedPieceId := some ⟨c, pt, p.pid⟩ }
            let g1 := setPending g c pm2
            let g2 := checkTimerStatus g1
            match g2.pendingWhite, g2.pendingBlack with
            | some wMv, some bMv =>
              let g3 := processMoves g2 wMv bMv
              ({ g3 with
                  pendingWhite := none, pendingBlack := none,
                  whiteActive := true, blackActive := true }, .resolvedByPromotion)
            | _, _ => (g2, .confirmed)

/-- File letter identity suffix of a starting pawn (`'a'..'h'`). -/
def fileId (f : Int) : String :=
  if f = 0 then "a" else if f = 1 then "b" else if f = 2 then "c"
  else if f = 3 then "d" else if f = 4 then "e" else if f = 5 then "f"
  else if f = 6 then "g" else if f = 7 then "h" else ""

/-- Back-rank pieces of `getStartingPosition` for one color. -/
def backRank (c : Color) (f : Int) : Option Piece :=
  if f = 0 then some ⟨c, .R, "1"⟩
  else if f = 1 then some ⟨c, .N, "1"⟩
  else if f = 2 then some ⟨c, .B, "1"⟩
  else if f = 3 then some ⟨c, .Q, ""⟩
  else if f = 4 then some ⟨c, .K, ""⟩
  else if f = 5 then some ⟨c, .B, "2"⟩
  else if f = 6 then some ⟨c, .N, "2"⟩
  else if f = 7 then some ⟨c, .R, "2"⟩
  else none

/-- The JS `getStartingPosition`, as a board. -/
def startingPosition : Board := fun r f =>
  if 0 ≤ f ∧ f ≤ 7 then
    if r = 0 then backRank .b f
    else if r = 1 then some ⟨.b, .P, fileId f⟩
    else if r = 6 then some ⟨.w, .P, fileId f⟩
    else if r = 7 then backRank .w f
    else none
  else none

/-- The JS `createGameState` (logic fields; wall-clock timer values are not
modelled, the activity flags start as in the source). -/
def initialGame : Game :=
  { position := startingPosition
    pendingWhite := none, pendingBlack := none
    lastMovedWhite := none, lastMovedBlack := none
    lastMoveWhite := none, lastMoveBlack := none
    inCheckWhite := false, inCheckBlack := false
    castlingWhite := ⟨true, true⟩, castlingBlack := ⟨true, true⟩
    enPassantTarget := none
    moveHistory := []
    timerRunning := false, whiteActive := true, blackActive := true
    gameStarted := false
    kingMovedWhite := false, kingMovedBlack := false
    rookMovedWA1 := false, rookMovedWH1 := false
    rookMovedBA8 := false, rookMovedBH8 := false
    gameResult := none }

/-- Modelled from the spec (§4.3 / claim C6): the spec's version of
exception (b) of the repeat-piece rule, in which the enumeration of other
pieces' moves additionally discards moves whose outcome leaves the mover's
own king in check.  The source's `hasOtherValidMoves` enumeration has no
such filter; this definition exists to compare the two. -/
def specOtherMoveAvoidingCheckExists (bd : Board) (c : Color) (piece : Piece)
    (gs : Ctx) : Bool :=
  coordList.any fun rf =>
    match bd rf.1 rf.2 with
    | some cp => decide (cp.color = c) && decide (¬ cp = piece) &&
        (coordList.any fun rf2 =>
          isLegalMove bd ⟨rf.1, rf.2⟩ ⟨rf2.1, rf2.2⟩ cp.color cp.ptype gs &&
          ! isInCheck (setSq (setSq bd rf.1 rf.2 none) rf2.1 rf2.2 (some cp)) c)
    | none => false

/-- Concrete board for claim C1: white pawn g7 about to promote, kings e1 / e8. -/
def boardC1 : Board := fun r f =>
  if r = 1 ∧ f = 6 then some ⟨.w, .P, "g"⟩
  else if r = 7 ∧ f = 4 then some ⟨.w, .K, ""⟩
  else if r = 0 ∧ f = 4 then some ⟨.b, .K, ""⟩
  else none

/-- Concrete game for claim C1: white has submitted the promotion move
g7→g8; the promotion choice has not arrived (`promotion = none`). -/
def gameC1 : Game :=
  { initialGame with
    position := boardC1,
    pendingWhite := some ⟨⟨1, 6⟩, ⟨0, 6⟩, none, none⟩,
    castlingWhite := ⟨false, false⟩, castlingBlack := ⟨false, false⟩ }

/-- Black's ordinary submission for claim C1 (king e8→e7). -/
def moveC1black : Move := ⟨⟨0, 4⟩, ⟨1, 4⟩, none, none⟩

/-- Concrete pre-round board for claim C2: white Ka1, Qg2, Ph6; black Kh8,
Qd2, Bc4. -/
def boardC2 : Board := fun r f =>
  if r = 7 ∧ f = 0 then some ⟨.w, .K, ""⟩
  else if r = 6 ∧ f = 6 then some ⟨.w, .Q, ""⟩
  else if r = 2 ∧ f = 7 then some ⟨.w, .P, "h"⟩
  else if r = 0 ∧ f = 7 then some ⟨.b, .K, ""⟩
  else if r = 6 ∧ f = 3 then some ⟨.b, .Q, ""⟩
  else if r = 4 ∧ f = 2 then some ⟨.b, .B, "1"⟩
  else none

/-- Concrete game for claim C2. -/
def gameC2 : Game :=
  { initialGame with
    position := boardC2,
    castlingWhite := ⟨false, false⟩, castlingBlack := ⟨false, false⟩ }

/-- White's move for claim C2: Qg2→g7, delivering mate on Kh8 (guarded by
the h6 pawn). -/
def moveC2white : Move := ⟨⟨6, 6⟩, ⟨1, 6⟩, none, none⟩

/-- Black's move for claim C2: Qd2→a2, delivering mate on Ka1 (guarded by
the c4 bishop). -/
def moveC2black : Move := ⟨⟨6, 3⟩, ⟨6, 0⟩, none, none⟩

/-- Concrete board for the C3 witness (the spec's own scenario): white pawn
e5, black knight f6, kings e1 / e8. -/
def boardC3 : Board := fun r f =>
  if r = 3 ∧ f = 4 then some ⟨.w, .P, "e"⟩
  else if r = 2 ∧ f = 5 then some ⟨.b, .N, "2"⟩
  else if r = 7 ∧ f = 4 then some ⟨.w, .K, ""⟩
  else if r = 0 ∧ f = 4 then some ⟨.b, .K, ""⟩
  else none

/-- Concrete game for the C3 witness. -/
def gameC3 : Game := { initialGame with position := boardC3 }

/-- White's move for the C3 witness: pawn e5 captures toward f6. -/
def moveC3white : Move := ⟨⟨3, 4⟩, ⟨2, 5⟩, none, none⟩

/-- Black's move for the C3 witness: knight f6→g8 (swerving away). -/
def moveC3black : Move := ⟨⟨2, 5⟩, ⟨0, 6⟩, none, none⟩

/-- Concrete board for the C4 counterexample: white Ke1, Rh1 (castling
rights standing); black Nh3 and Ka8. -/
def boardC4 : Board := fun r f =>
  if r = 7 ∧ f = 4 then some ⟨.w, .K, ""⟩
  else if r = 7 ∧ f = 7 then some ⟨.w, .R, "2"⟩
  else if r = 5 ∧ f = 7 then some ⟨.b, .N, "1"⟩
  else if r = 0 ∧ f = 0 then some ⟨.b, .K, ""⟩
  else none

/-- Concrete game for the C4 counterexample. -/
def gameC4 : Game :=
  { initialGame with position := boardC4, castlingBlack := ⟨false, false⟩ }

/-- White's move for the C4 counterexample: the castling shift e1→g1. -/
def moveC4white : Move := ⟨⟨7, 4⟩, ⟨7, 6⟩, none, none⟩

/-- Black's move for the C4 counterexample: knight h3→g1, the same
destination square. -/
def moveC4black : Move := ⟨⟨5, 7⟩, ⟨7, 6⟩, none, none⟩

/-- Concrete board for the C4 witness: two knights that can reach c6, kings
far away. -/
def boardC4w : Board := fun r f =>
  if r = 4 ∧ f = 3 then some ⟨.w, .N, "1"⟩
  else if r = 0 ∧ f = 1 then some ⟨.b, .N, "1"⟩
  else if r = 7 ∧ f = 0 then some ⟨.w, .K, ""⟩
  else if r = 0 ∧ f = 7 then some ⟨.b, .K, ""⟩
  else none

/-- Concrete game for the C4 witness. -/
def gameC4w : Game :=
  { initialGame with
    position := boardC4w,
    castlingWhite := ⟨false, false⟩, castlingBlack := ⟨false, false⟩ }

/-- White's move for the C4 witness: Nd4→c6. -/
def moveC4wWhite : Move := ⟨⟨4, 3⟩, ⟨2, 2⟩, none, none⟩

/-- Black's move for the C4 witness: Nb8→c6, the same destination. -/
def moveC4wBlack : Move := ⟨⟨0, 1⟩, ⟨2, 2⟩, none, none⟩

/-- White's double pawn advance a2→a4 for claim C5. -/
def moveC5white : Move := ⟨⟨6, 0⟩, ⟨4, 0⟩, none, none⟩

/-- Black's double pawn advance h7→h5 for claim C5. -/
def moveC5black : Move := ⟨⟨1, 7⟩, ⟨3, 7⟩, none, none⟩

/-- Concrete board for the C6 counterexample: white Ka1 and Rh5; black Qc2
and Kh8.  Every geometric move of the white king lands on a square covered
by the black queen, and white has no other piece besides the rook. -/
def boardC6 : Board := fun r f =>
  if r = 7 ∧ f = 0 then some ⟨.w, .K, ""⟩
  else if r = 3 ∧ f = 7 then some ⟨.w, .R, "2"⟩
  else if r = 6 ∧ f = 2 then some ⟨.b, .Q, ""⟩
  else if r = 0 ∧ f = 7 then some ⟨.b, .K, ""⟩
  else none

/-- Concrete game for the C6 counterexample: the rook is white's last moved
piece, white is not in check. -/
def gameC6 : Game :=
  { initialGame with
    position := boardC6, lastMovedWhite := some ⟨.w, .R, "2"⟩,
    castlingWhite := ⟨false, false⟩, castlingBlack := ⟨false, false⟩ }

/-- The repeated rook move for the C6 counterexample: Rh5→h6. -/
def moveC6 : Move := ⟨⟨3, 7⟩, ⟨2, 7⟩, none, none⟩

/-- Concrete board for the C6 witness: white Ke1, Ra1; black Ke8. -/
def boardC6w : Board := fun r f =>
  if r = 7 ∧ f = 4 then some ⟨.w, .K, ""⟩
  else if r = 7 ∧ f = 0 then some ⟨.w, .R, "1"⟩
  else if r = 0 ∧ f = 4 then some ⟨.b, .K, ""⟩
  else none

/-- Concrete game for the C6 witness: the rook is white's last moved piece. -/
def gameC6w : Game :=
  { initialGame with
    position := boardC6w, lastMovedWhite := some ⟨.w, .R, "1"⟩,
    castlingWhite := ⟨false, false⟩, castlingBlack := ⟨false, false⟩ }

/-- The repeated rook move for the C6 witness: Ra1→a2. -/
def moveC6w : Move := ⟨⟨7, 0⟩, ⟨6, 0⟩, none, none⟩

/-- Concrete board for the C7 counterexample: white Ke1, Rh1; black Rg8
covering the castling landing square g1 (but neither e1 nor f1), black Ka8. -/
def boardC7 : Board := fun r f =>
  if r = 7 ∧ f = 4 then some ⟨.w, .K, ""⟩
  else if r = 7 ∧ f = 7 then some ⟨.w, .R, "2"⟩
  else if r = 0 ∧ f = 6 then some ⟨.b, .R, "1"⟩
  else if r = 0 ∧ f = 0 then some ⟨.b, .K, ""⟩
  else none

/-- Context for the C7 counterexample: white still has both castling
rights. -/
def ctxC7 : Ctx := ⟨⟨true, true⟩, ⟨false, false⟩, none⟩

/-- Concrete board for the C7 witness: white Ke1, Rh1; black Ka8 only. -/
def boardC7w : Board := fun r f =>
  if r = 7 ∧ f = 4 then some ⟨.w, .K, ""⟩
  else if r = 7 ∧ f = 7 then some ⟨.w, .R, "2"⟩
  else if r = 0 ∧ f = 0 then some ⟨.b, .K, ""⟩
  else none

/-- Concrete board for the C8 counterexample: bare kings d1 / d8. -/
def boardC8 : Board := fun r f =>
  if r = 7 ∧ f = 3 then some ⟨.w, .K, ""⟩
  else if r = 0 ∧ f = 3 then some ⟨.b, .K, ""⟩
  else none

/-- Concrete game for the C8 counterexample: a terminal result is stored and
white already has a pending move d1→e2. -/
def gameC8 : Game :=
  { initialGame with
    position := boardC8, gameResult := some .whiteWins,
    pendingWhite := some ⟨⟨7, 3⟩, ⟨6, 4⟩, none, none⟩,
    castlingWhite := ⟨false, false⟩, castlingBlack := ⟨false, false⟩ }

/-- Black's later submission for the C8 counterexample: king d8→d7. -/
def moveC8black : Move := ⟨⟨0, 3⟩, ⟨1, 3⟩, none, none⟩

/-- An illegal first submission for the C9 counterexample: pawn e2→e5. -/
def moveC9 : Move := ⟨⟨6, 4⟩, ⟨3, 4⟩, none, none⟩

/-- A submission from an empty square for the C9 witness: e4→e5. -/
def moveC9w : Move := ⟨⟨4, 4⟩, ⟨3, 4⟩, none, none⟩

/-- Concrete board for claim C10: white Kd1 shielded by Bd2 from black Rd8;
black Kh8. -/
def boardC10 : Board := fun r f =>
  if r = 7 ∧ f = 3 then some ⟨.w, .K, ""⟩
  else if r = 6 ∧ f = 3 then some ⟨.w, .B, "1"⟩
  else if r = 0 ∧ f = 3 then some ⟨.b, .R, "1"⟩
  else if r = 0 ∧ f = 7 then some ⟨.b, .K, ""⟩
  else none

/-- Concrete game for claim C10: white's check flag is clear. -/
def gameC10 : Game :=
  { initialGame with
    position := boardC10,
    castlingWhite := ⟨false, false⟩, castlingBlack := ⟨false, false⟩ }

/-- White's self-exposing move for claim C10: Bd2→e3, opening the d-file
onto white's own king. -/
def moveC10 : Move := ⟨⟨6, 3⟩, ⟨5, 4⟩, none, none⟩

/-- Rejection outcomes of `submitMove` (the error emissions). -/
def SubmitOutcome.isReject : SubmitOutcome → Bool
  | .errNoPiece => true
  | .errNotYourPiece => true
  | .errRepeat => true
  | .errIllegal => true
  | .errStillCheck => true
  | .promotionNeeded => false
  | .accepted => false
  | .resolved => false

/-- Rejection outcomes of `promotePawn` (the error emissions). -/
def PromoteOutcome.isReject : PromoteOutcome → Bool
  | .errInvalidType => true
  | .errNoPending => true
  | .errSquareMismatch => true
  | .errNoPawn => true
  | .errWrongRank => true
  | .confirmed => false
  | .resolvedByPromotion => false

/-- Claim C1: a round must not resolve while a submitted back-rank pawn move
still awaits its promotion choice.  Evaluation at the failing input: white's
pending g7→g8 carries no promotion choice, yet black's ordinary submission
immediately triggers round resolution, and the resolved position has the
still-unpromoted white pawn standing on g8. -/
theorem c1_promotionPending_round_resolves :
    gameC1.pendingWhite = some ⟨⟨1, 6⟩, ⟨0, 6⟩, none, none⟩ ∧
    (submitMove gameC1 .b moveC1black).2 = .resolved ∧
    (submitMove gameC1 .b moveC1black).1.position 0 6 = some ⟨.w, .P, "g"⟩ :=
  ⟨by decide, by decide, by decide⟩

/-- Claim C2: the claim says a double checkmate resolves to a draw.
Evaluation at the failing input: after the round both colors are checkmated
on the resulting position, yet the evaluator returns `blackWins` (the
white-is-checkmated branch of the if/else chain fires first, so the draw
branch is unreachable). -/
theorem c2_double_checkmate_gives_blackWins :
    isCheckmate (processMoves gameC2 moveC2white moveC2black).position .w
      (processMoves gameC2 moveC2white moveC2black).ctx = true ∧
    isCheckmate (processMoves gameC2 moveC2white moveC2black).position .b
      (processMoves gameC2 moveC2white moveC2black).ctx = true ∧
    (processMoves gameC2 moveC2white moveC2black).gameResult = some .blackWins :=
  ⟨by decide, by decide, by decide⟩

/-- Claim C4 counterexample: both moves are individually legal and share the
destination g1, yet after resolution white's moving piece (the castling
king) occupies the shared destination — the collision invariant "both moving
pieces are absent, regardless of piece types" fails when a castling move is
involved, because `handleCastling` has already placed the king before the
collision check. -/
theorem c4_collision_castled_king_remains :
    isLegalMove boardC4 ⟨7, 4⟩ ⟨7, 6⟩ .w .K gameC4.ctx = true ∧
    isLegalMove boardC4 ⟨5, 7⟩ ⟨7, 6⟩ .b .N gameC4.ctx = true ∧
    moveC4white.toSq = moveC4black.toSq ∧
    (processMoves gameC4 moveC4white moveC4black).position 7 6 = some ⟨.w, .K, ""⟩ :=
  ⟨by decide, by decide, by decide, by decide⟩

/-- Claim C5 counterexample: when both sides double-advance (a2a4 and h7h5
from the start), the single `enPassantTarget` field holds only black's
passed square h6 — white's passed square a3 is not recorded anywhere — and
the surviving target is not scoped to the opposing color: black's own g7
pawn passes the legality test onto black's own target h6. -/
theorem c5_ep_targets_not_independent :
    (processMoves initialGame moveC5white moveC5black).enPassantTarget = some ⟨2, 7⟩ ∧
    ¬ (processMoves initialGame moveC5white moveC5black).enPassantTarget = some ⟨5, 0⟩ ∧
    isLegalMove (processMoves initialGame moveC5white moveC5black).position
      ⟨1, 6⟩ ⟨2, 7⟩ .b .P (processMoves initialGame moveC5white moveC5black).ctx = true :=
  ⟨by decide, by decide, by decide⟩

/-- Claim C6 counterexample: white repeats the rook while (in the spec's
sense) no other white move avoids self-check — the spec's exception (b)
holds and exception (a) does not apply — yet the server rejects the
submission, because its enumeration accepts the king's geometric moves
without the self-check filter. -/
theorem c6_repeat_rejected_despite_spec_exception :
    specOtherMoveAvoidingCheckExists boardC6 .w ⟨.w, .R, "2"⟩ gameC6.ctx = false ∧
    gameC6.lastMovedWhite = some ⟨.w, .R, "2"⟩ ∧
    gameC6.inCheckWhite = false ∧
    (submitMove gameC6 .w moveC6).2 = .errRepeat :=
  ⟨by decide, by decide, by decide, by decide⟩

/-- Claim C7 counterexample: kingside castling is accepted although the
king's landing square g1 is attacked by the black rook on g8 — the legality
check probes only the crossed square f1, never the landing square. -/
theorem c7_castling_onto_attacked_square_permitted :
    isLegalMove boardC7 ⟨7, 4⟩ ⟨7, 6⟩ .w .K ctxC7 = true ∧
    isSquareUnderAttack boardC7 ⟨7, 6⟩ .b = true :=
  ⟨by decide, by decide⟩

/-- Claim C8 counterexample: with a terminal result already stored, a later
submission still triggers a round resolution, which recomputes the result
and clears it back to null. -/
theorem c8_result_cleared_by_later_round :
    gameC8.gameResult = some .whiteWins ∧
    (submitMove gameC8 .b moveC8black).2 = .resolved ∧
    (submitMove gameC8 .b moveC8black).1.gameResult = none :=
  ⟨by decide, by decide, by decide⟩

/-- Claim C9 counterexample: a rejected submission does mutate the
GameState — the very first (illegal) submission of a fresh game flips
`gameStarted` from false to true before any validation. -/
theorem c9_rejection_mutates_gameStarted :
    initialGame.gameStarted = false ∧
    (submitMove initialGame .w moveC9).2 = .errIllegal ∧
    (submitMove initialGame .w moveC9).1.gameStarted = true :=
  ⟨by decide, by decide, by decide⟩

/-- Helper: a legal move never targets a square holding a piece of the
mover's own color (the first check of `isLegalMove`). -/
theorem isLegalMove_dest_not_own (bd : Board) (fr ts : Sq) (c : Color) (t : PType)
    (gs : Ctx) (h : isLegalMove bd fr ts c t gs = true) :
    pieceHasColor (bd ts.rank ts.file) c = false := by
  by_contra hc
  rw [Bool.not_eq_false] at hc
  rw [isLegalMove] at h
  rw [show (2 : Nat) = 1 + 1 from rfl] at h
  rw [isLegalMoveAux] at h
  simp only [hc, if_true] at h
  simp at h

/-- Helper: the position of a resolved round is `processBoard` of the
pre-round position. -/
theorem processMoves_position (g : Game) (wM bM : Move) :
    (processMoves g wM bM).position = processBoard g.position wM bM := rfl

/-- Helper: reading an updated square. -/
theorem setSq_same (bd : Board) (r f : Int) (v : Option Piece) :
    setSq bd r f v r f = v := by
  simp [setSq]

/-- Helper: reading an unrelated square. -/
theorem setSq_other (bd : Board) (r f : Int) (v : Option Piece) (r2 f2 : Int)
    (h : ¬ (r2 = r ∧ f2 = f)) : setSq bd r f v r2 f2 = bd r2 f2 := by
  simp only [setSq, if_neg h]

/-- Helper: reading any square of an update is the new value or the old
board's value. -/
theorem setSq_eq_or (bd : Board) (r f : Int) (v : Option Piece) (r2 f2 : Int) :
    setSq bd r f v r2 f2 = v ∨ setSq bd r f v r2 f2 = bd r2 f2 := by
  by_cases h : (r2 = r ∧ f2 = f)
  · left
    simp [setSq, h]
  · right
    exact setSq_other bd r f v r2 f2 h

/-- Helper: distinct squares differ in coordinates. -/
theorem sq_ne_coords (s1 s2 : Sq) (h : ¬ s1 = s2) :
    ¬ (s1.rank = s2.rank ∧ s1.file = s2.file) := by
  rintro ⟨h1, h2⟩
  apply h
  cases s1
  cases s2
  simp_all

/-- Claim C3 (confirmed): for a pre-round position and two individually
legal moves with distinct destinations, if one side's destination is the
very square the other side moves from (so the pre-round occupant of that
destination is the piece the other side moves this round), no capture
occurs: white's piece (with any promotion applied) occupies white's
destination and black's piece occupies black's destination, exactly as if
the moves were independent.  The disjunctive hypothesis covers both role
assignments of the claim's side A — white aiming at black's origin, and
black aiming at white's origin — and the two cases walk the source's two
distinct per-side placement branches. -/
theorem c3_swerve_no_capture (g : Game) (wM bM : Move) (wp bp : Piece)
    (hw : g.position wM.fromSq.rank wM.fromSq.file = some wp)
    (hwc : wp.color = .w)
    (hb : g.position bM.fromSq.rank bM.fromSq.file = some bp)
    (hbc : bp.color = .b)
    (hlw : isLegalMove g.position wM.fromSq wM.toSq wp.color wp.ptype g.ctx = true)
    (hlb : isLegalMove g.position bM.fromSq bM.toSq bp.color bp.ptype g.ctx = true)
    (hsw : wM.toSq = bM.fromSq ∨ bM.toSq = wM.fromSq)
    (hne : ¬ wM.toSq = bM.toSq) :
    (processMoves g wM bM).position wM.toSq.rank wM.toSq.file
        = promotedPieceOf .w wM (some wp) ∧
    (processMoves g wM bM).position bM.toSq.rank bM.toSq.file
        = promotedPieceOf .b bM (some bp) := by
  have hneWB := sq_ne_coords _ _ hne
  rcases hsw with hsw | hsw
  · have hbw : g.position wM.toSq.rank wM.toSq.file = some bp := by rw [hsw]; exact hb
    have hdest : pieceHasColor (g.position bM.toSq.rank bM.toSq.file) bp.color = false :=
      isLegalMove_dest_not_own _ _ _ _ _ _ hlb
    have hwfromto : ¬ (wM.fromSq = wM.toSq) := by
      intro hEq
      rw [← hEq] at hbw
      rw [hw] at hbw
      have hpe : wp = bp := by injection hbw
      rw [hpe, hbc] at hwc
      exact absurd hwc (by decide)
    have hbfromto : ¬ (bM.fromSq = bM.toSq) := by
      intro hEq
      rw [hEq] at hsw
      exact hne hsw
    have hWcond : g.position wM.toSq.rank wM.toSq.file
        = g.position bM.fromSq.rank bM.fromSq.file ∧ ¬ (bM.fromSq = bM.toSq) := by
      constructor
      · rw [hsw]
      · exact hbfromto
    rw [processMoves_position, processBoard]
    simp only [destinationPhase]
    rw [if_neg hne, if_pos hWcond, hw]
    rcases hcb : g.position bM.toSq.rank bM.toSq.file with _ | q
    · have hfirst : ¬ ((none : Option Piece) = some wp ∧ ¬ (wM.fromSq = wM.toSq)) := by
        rintro ⟨h1, _⟩
        exact Option.noConfusion h1
      rw [if_neg hfirst, if_pos (Or.inl rfl)]
      constructor
      · rw [setSq_other _ _ _ _ _ _ hneWB, setSq_same]
      · rw [setSq_same, hb]
    · rw [hcb] at hdest
      simp only [pieceHasColor, decide_eq_false_iff_not] at hdest
      have hqw : q.color = Color.w := by
        cases hq : q.color
        · rfl
        · exact absurd (by rw [hq, hbc]) hdest
      have hcolor : pieceHasColor (some q) Color.w = true := by
        simp [pieceHasColor, hqw]
      by_cases hqwp : q = wp
      · rw [if_pos ⟨by rw [hqwp], hwfromto⟩]
        constructor
        · rw [setSq_other _ _ _ _ _ _ hneWB, setSq_same]
        · rw [setSq_same, hb]
      · have hfirst : ¬ (some q = some wp ∧ ¬ (wM.fromSq = wM.toSq)) := by
          rintro ⟨h1, _⟩
          exact hqwp (by injection h1)
        rw [if_neg hfirst, if_pos (Or.inr hcolor)]
        constructor
        · rw [setSq_other _ _ _ _ _ _ hneWB, setSq_same]
        · rw [setSq_same, hb]
  · have hwb : g.position bM.toSq.rank bM.toSq.file = some wp := by rw [hsw]; exact hw
    have hdest : pieceHasColor (g.position wM.toSq.rank wM.toSq.file) wp.color = false :=
      isLegalMove_dest_not_own _ _ _ _ _ _ hlw
    have hwfromto : ¬ (wM.fromSq = wM.toSq) := by
      intro hEq
      rw [hEq] at hsw
      exact hne hsw.symm
    have hbfromto : ¬ (bM.fromSq = bM.toSq) := by
      intro hEq
      rw [hEq] at hb
      rw [hwb] at hb
      have hpe : wp = bp := by injection hb
      rw [hpe, hbc] at hwc
      exact absurd hwc (by decide)
    have hBcond : g.position bM.toSq.rank bM.toSq.file
        = g.position wM.fromSq.rank wM.fromSq.file ∧ ¬ (wM.fromSq = wM.toSq) := by
      constructor
      · rw [hsw]
      · exact hwfromto
    rw [processMoves_position, processBoard]
    simp only [destinationPhase]
    rw [if_neg hne, if_pos hBcond, hb, hw]
    rcases hcw : g.position wM.toSq.rank wM.toSq.file with _ | q
    · have hfirst : ¬ ((none : Option Piece) = some bp ∧ ¬ (bM.fromSq = bM.toSq)) := by
        rintro ⟨h1, _⟩
        exact Option.noConfusion h1
      rw [if_neg hfirst, if_pos (Or.inl rfl)]
      constructor
      · rw [setSq_other _ _ _ _ _ _ hneWB, setSq_same]
      · rw [setSq_same]
    · rw [hcw] at hdest
      simp only [pieceHasColor, decide_eq_false_iff_not] at hdest
      have hqb : q.color = Color.b := by
        cases hq : q.color
        · exact absurd (by rw [hq, hwc]) hdest
        · rfl
      have hcolor : pieceHasColor (some q) Color.b = true := by
        simp [pieceHasColor, hqb]
      by_cases hqbp : q = bp
      · rw [if_pos ⟨by rw [hqbp], hbfromto⟩]
        constructor
        · rw [setSq_other _ _ _ _ _ _ hneWB, setSq_same]
        · rw [setSq_same]
      · have hfirst : ¬ (some q = some bp ∧ ¬ (bM.fromSq = bM.toSq)) := by
          rintro ⟨h1, _⟩
          exact hqbp (by injection h1)
        rw [if_neg hfirst, if_pos (Or.inr hcolor)]
        constructor
        · rw [setSq_other _ _ _ _ _ _ hneWB, setSq_same]
        · rw [setSq_same]

/-- Witness for claim C3 at the spec's own scenario: white pawn e5 aims at
f6, where the black knight stands; the knight plays f6→g8 the same round.
The pawn ends on f6, the knight on g8 — no capture. -/
theorem c3_swerve_witness :
    (processMoves gameC3 moveC3white moveC3black).position 2 5
        = some ⟨.w, .P, "e"⟩ ∧
    (processMoves gameC3 moveC3white moveC3black).position 0 6
        = some ⟨.b, .N, "2"⟩ := by
  have h := c3_swerve_no_capture gameC3 moveC3white moveC3black
    ⟨.w, .P, "e"⟩ ⟨.b, .N, "2"⟩
    (by decide) rfl (by decide) rfl (by decide) (by decide)
    (Or.inl (by decide)) (by decide)
  exact h

/-- Claim C4 as amended: if both destinations coincide and neither side's
move is a castling shift (king moved two files), both moving pieces are
absent from the resulting board — every square of the new position is either
emptied or unchanged, and both source squares are emptied.  The uniqueness
hypotheses say each moving piece string occurs only at its own source
square, which holds for every position reachable from the start. -/
theorem c4_amended (g : Game) (wM bM : Move) (wp bp : Piece)
    (hw : g.position wM.fromSq.rank wM.fromSq.file = some wp)
    (hb : g.position bM.fromSq.rank bM.fromSq.file = some bp)
    (hcol : wM.toSq = bM.toSq)
    (hnkw : ¬ (wp.ptype = .K ∧ (wM.fromSq.file - wM.toSq.file).natAbs = 2))
    (hnkb : ¬ (bp.ptype = .K ∧ (bM.fromSq.file - bM.toSq.file).natAbs = 2))
    (huw : ∀ r f : Int, g.position r f = some wp → r = wM.fromSq.rank ∧ f = wM.fromSq.file)
    (hub : ∀ r f : Int, g.position r f = some bp → r = bM.fromSq.rank ∧ f = bM.fromSq.file) :
    ∀ r f : Int, ¬ (processMoves g wM bM).position r f = some wp ∧
        ¬ (processMoves g wM bM).position r f = some bp := by
  have hcast : castlingPhase g.position wM bM = g.position := by
    simp only [castlingPhase]
    have hc1 : ¬ (pieceIsType (g.position wM.fromSq.rank wM.fromSq.file) PType.K = true ∧
        (wM.fromSq.file - wM.toSq.file).natAbs = 2) := by
      rintro ⟨h1, h2⟩
      rw [hw] at h1
      simp only [pieceIsType, decide_eq_true_eq] at h1
      exact hnkw ⟨h1, h2⟩
    have hc2 : ¬ (pieceIsType (g.position bM.fromSq.rank bM.fromSq.file) PType.K = true ∧
        (bM.fromSq.file - bM.toSq.file).natAbs = 2) := by
      rintro ⟨h1, h2⟩
      rw [hb] at h1
      simp only [pieceIsType, decide_eq_true_eq] at h1
      exact hnkb ⟨h1, h2⟩
    rw [if_neg hc1, if_neg hc2]
  have hvacEq : ∀ nb : Board, vacatePhase g.position nb wM bM =
      setSq (setSq nb wM.fromSq.rank wM.fromSq.file none)
        bM.fromSq.rank bM.fromSq.file none := by
    intro nb
    simp only [vacatePhase]
    simp
  have hposEq : (processMoves g wM bM).position =
      setSq (setSq (epCapturePhase g.position g.position wM bM)
        wM.fromSq.rank wM.fromSq.file none) bM.fromSq.rank bM.fromSq.file none := by
    rw [processMoves_position, processBoard, hcast]
    simp only [destinationPhase]
    rw [if_pos hcol, hvacEq]
  have hepor : ∀ r f : Int,
      epCapturePhase g.position g.position wM bM r f = none ∨
      epCapturePhase g.position g.position wM bM r f = g.position r f := by
    intro r f
    simp only [epCapturePhase]
    split_ifs with h1 h2 h3
    · rcases setSq_eq_or (setSq g.position (wM.toSq.rank + 1) wM.toSq.file none)
        (bM.toSq.rank - 1) bM.toSq.file none r f with h | h
      · left
        exact h
      · rw [h]
        rcases setSq_eq_or g.position (wM.toSq.rank + 1) wM.toSq.file none r f with h4 | h4
        · left
          exact h4
        · right
          exact h4
    · rcases setSq_eq_or g.position (bM.toSq.rank - 1) bM.toSq.file none r f with h | h
      · left
        exact h
      · right
        exact h
    · rcases setSq_eq_or g.position (wM.toSq.rank + 1) wM.toSq.file none r f with h | h
      · left
        exact h
      · right
        exact h
    · right
      rfl
  have hval : ∀ r f : Int, (processMoves g wM bM).position r f = none ∨
      (processMoves g wM bM).position r f = g.position r f := by
    intro r f
    rw [hposEq]
    rcases setSq_eq_or (setSq (epCapturePhase g.position g.position wM bM)
        wM.fromSq.rank wM.fromSq.file none) bM.fromSq.rank bM.fromSq.file none r f with h | h
    · left
      exact h
    · rw [h]
      rcases setSq_eq_or (epCapturePhase g.position g.position wM bM)
          wM.fromSq.rank wM.fromSq.file none r f with h2 | h2
      · left
        exact h2
      · rw [h2]
        exact hepor r f
  have hsrcW : (processMoves g wM bM).position wM.fromSq.rank wM.fromSq.file = none := by
    rw [hposEq]
    rcases setSq_eq_or (setSq (epCapturePhase g.position g.position wM bM)
        wM.fromSq.rank wM.fromSq.file none) bM.fromSq.rank bM.fromSq.file none
        wM.fromSq.rank wM.fromSq.file with h | h
    · exact h
    · rw [h, setSq_same]
  have hsrcB : (processMoves g wM bM).position bM.fromSq.rank bM.fromSq.file = none := by
    rw [hposEq, setSq_same]
  intro r f
  constructor
  · intro hcontra
    rcases hval r f with h | h
    · rw [hcontra] at h
      exact Option.noConfusion h
    · rw [hcontra] at h
      have hco := huw r f h.symm
      rw [hco.1, hco.2] at hcontra
      rw [hsrcW] at hcontra
      exact Option.noConfusion hcontra
  · intro hcontra
    rcases hval r f with h | h
    · rw [hcontra] at h
      exact Option.noConfusion h
    · rw [hcontra] at h
      have hco := hub r f h.symm
      rw [hco.1, hco.2] at hcontra
      rw [hsrcB] at hcontra
      exact Option.noConfusion hcontra

/-- Witness for the amended C4: two knights meet on c6; afterwards neither
knight is anywhere on the board (shown at the shared destination). -/
theorem c4_collision_witness :
    ¬ (processMoves gameC4w moveC4wWhite moveC4wBlack).position 2 2
        = some ⟨.w, .N, "1"⟩ ∧
    ¬ (processMoves gameC4w moveC4wWhite moveC4wBlack).position 2 2
        = some ⟨.b, .N, "1"⟩ := by
  have hpos : gameC4w.position = boardC4w := rfl
  have huw : ∀ r f : Int, gameC4w.position r f = some ⟨.w, .N, "1"⟩ →
      r = moveC4wWhite.fromSq.rank ∧ f = moveC4wWhite.fromSq.file := by
    intro r f h
    rw [hpos] at h
    simp only [boardC4w] at h
    split_ifs at h with h1 h2 h3 h4
    · exact h1
    · exact absurd h (by decide)
    · exact absurd h (by decide)
    · exact absurd h (by decide)
  have hub : ∀ r f : Int, gameC4w.position r f = some ⟨.b, .N, "1"⟩ →
      r = moveC4wBlack.fromSq.rank ∧ f = moveC4wBlack.fromSq.file := by
    intro r f h
    rw [hpos] at h
    simp only [boardC4w] at h
    split_ifs at h with h1 h2 h3 h4
    · exact absurd h (by decide)
    · exact h2
    · exact absurd h (by decide)
    · exact absurd h (by decide)
  have h := c4_amended gameC4w moveC4wWhite moveC4wBlack ⟨.w, .N, "1"⟩ ⟨.b, .N, "1"⟩
    (by decide) (by decide) (by decide) (by decide) (by decide) huw hub
  exact h 2 2


/-- Claim C5 as amended: the game state has one `enPassantTarget` field; it
is reset and then written first by white's double advance and then by
black's, so when both sides double-advance in the same round only black's
passed square survives — white's target is not recorded.  (The surviving
target is also not color-scoped; see the counterexample.) -/
theorem c5_amended (g : Game) (wM bM : Move) (wp bp : Piece)
    (hw : g.position wM.fromSq.rank wM.fromSq.file = some wp) (hwp : wp.ptype = .P)
    (hwd : (wM.fromSq.rank - wM.toSq.rank).natAbs = 2)
    (hb : g.position bM.fromSq.rank bM.fromSq.file = some bp) (hbp : bp.ptype = .P)
    (hbd : (bM.fromSq.rank - bM.toSq.rank).natAbs = 2) :
    (processMoves g wM bM).enPassantTarget = some ⟨bM.fromSq.rank + 1, bM.fromSq.file⟩ := by
  have hEq : (processMoves g wM bM).enPassantTarget =
      (if pieceIsType (g.position bM.fromSq.rank bM.fromSq.file) .P = true ∧
          (bM.fromSq.rank - bM.toSq.rank).natAbs = 2 then
        some (⟨bM.fromSq.rank + 1, bM.fromSq.file⟩ : Sq)
      else if pieceIsType (g.position wM.fromSq.rank wM.fromSq.file) .P = true ∧
          (wM.fromSq.rank - wM.toSq.rank).natAbs = 2 then
        some (⟨wM.fromSq.rank - 1, wM.fromSq.file⟩ : Sq)
      else none) := rfl
  rw [hEq]
  rw [if_pos ⟨by rw [hb]; simp [pieceIsType, hbp], hbd⟩]

/-- Witness for the amended C5: from the start, a2a4 together with h7h5
leaves `enPassantTarget = h6`. -/
theorem c5_amended_witness :
    (processMoves initialGame moveC5white moveC5black).enPassantTarget = some ⟨2, 7⟩ := by
  have h := c5_amended initialGame moveC5white moveC5black
    ⟨.w, .P, "a"⟩ ⟨.b, .P, "h"⟩ (by decide) rfl (by decide) (by decide) rfl (by decide)
  exact h

/-- Helper: marking the game started does not change the last-moved lookup. -/
theorem lastMovedOf_started (g : Game) (c : Color) :
    lastMovedOf { g with gameStarted := true } c = lastMovedOf g c := by
  cases c <;> rfl

/-- Helper: marking the game started does not change the check-flag lookup. -/
theorem inCheckOf_started (g : Game) (c : Color) :
    inCheckOf { g with gameStarted := true } c = inCheckOf g c := by
  cases c <;> rfl

/-- Helper: marking the game started does not change the legality context. -/
theorem ctx_started (g : Game) :
    Game.ctx { g with gameStarted := true } = g.ctx := rfl

/-- Helper: once past the repeat gate, `submitMove` never reports a
repeated-piece error. -/
theorem submitFinish_ne_errRepeat (g : Game) (c : Color) (m : Move) (piece : Piece) :
    ¬ (submitFinish g c m piece).2 = .errRepeat := by
  intro h
  simp only [submitFinish] at h
  split_ifs at h <;> first
    | simp at h
    | (split at h <;> simp at h)

/-- Claim C6 as amended: with the moving piece equal to the color's
last-moved identity, the submission is rejected with the repeated-piece
error exactly when neither exception holds, where exception (b) is the
source's enumeration: some other piece of the color has a move accepted by
`isLegalMove` — with no filtering of moves whose outcome leaves the mover's
own king in check (contrary to the claim's wording). -/
theorem c6_amended (g : Game) (c : Color) (m : Move) (piece : Piece)
    (hp : g.position m.fromSq.rank m.fromSq.file = some piece)
    (hc : piece.color = c)
    (hrep : lastMovedOf g c = some piece) :
    ((submitMove g c m).2 = .errRepeat ↔
      ¬ (piece.ptype = .K ∧ inCheckOf g c = true) ∧
      hasOtherValidMoves g.position c piece g.ctx = true) := by
  simp only [submitMove, lastMovedOf_started, inCheckOf_started, ctx_started]
  rw [hp]
  simp only [hrep]
  rw [if_neg (fun hcc => hcc hc)]
  by_cases hk : piece.ptype = PType.K ∧ inCheckOf g c = true
  · refine iff_of_false ?_ (fun hcon => hcon.1 hk)
    have hkb : (decide (piece.ptype = PType.K) && inCheckOf g c) = true := by
      simp [hk.1, hk.2]
    simp only [hkb, Bool.true_or, Bool.not_true, Bool.false_eq_true, if_false]
    exact submitFinish_ne_errRepeat _ _ _ _
  · have hkb : (decide (piece.ptype = PType.K) && inCheckOf g c) = false := by
      cases hx : (decide (piece.ptype = PType.K) && inCheckOf g c)
      · rfl
      · exfalso
        apply hk
        simp only [Bool.and_eq_true, decide_eq_true_eq] at hx
        exact hx
    by_cases hh : hasOtherValidMoves g.position c piece g.ctx = true
    · refine iff_of_true ?_ ⟨fun h1 => hk h1, hh⟩
      simp only [hkb, hh, Bool.false_or, Bool.not_true, Bool.false_eq_true, if_false,
        Bool.not_false, if_true]
    · have hhf : hasOtherValidMoves g.position c piece g.ctx = false := by
        cases hx : hasOtherValidMoves g.position c piece g.ctx
        · rfl
        · exact absurd hx hh
      refine iff_of_false ?_ (fun hcon => hh hcon.2)
      simp only [hkb, hhf, Bool.false_or, Bool.not_false, Bool.not_true,
        Bool.false_eq_true, if_false]
      exact submitFinish_ne_errRepeat _ _ _ _

/-- Witness for the amended C6: white repeats the a1 rook while the white
king still has geometric moves, so the repeat is rejected. -/
theorem c6_amended_witness :
    (submitMove gameC6w .w moveC6w).2 = .errRepeat := by
  have h := c6_amended gameC6w .w moveC6w ⟨.w, .R, "1"⟩ (by decide) rfl rfl
  exact h.mpr ⟨by decide, by decide⟩

/-- Helper: the probe at fuel 1 is the exported check test. -/
theorem isInCheckWith_one (bd : Board) (c : Color) :
    isInCheckWith (isLegalMoveAux 1) bd c = isInCheck bd c := rfl

/-- Helper: the scan at fuel 1 is the exported attack test. -/
theorem attackScanWith_one (bd : Board) (sq : Sq) (a : Color) :
    attackScanWith (isLegalMoveAux 1) bd sq a = isSquareUnderAttack bd sq a := rfl

/-- Claim C7 as amended: for a king two-file shift onto a square not held
by the mover's own color, the legality check accepts exactly when the
corresponding castling right stands, the king is not currently in check, the
fixed home-side squares between king and rook files are empty, and the
crossed square (f-file resp. d-file) is not attacked — the landing square is
never tested for attack.  In addition, castling is disabled inside the
recursive attack probe: at probe fuel with the dummy context, any two-file
king shift is rejected outright. -/
theorem c7_amended (bd : Board) (fr ts : Sq) (c : Color) (gs : Ctx)
    (hdest : pieceHasColor (bd ts.rank ts.file) c = false)
    (hr : ts.rank - fr.rank = 0) (hf : (ts.file - fr.file).natAbs = 2) :
    (isLegalMove bd fr ts c .K gs =
      ((if ts.file - fr.file > 0 then (ctxRights gs c).kingSide
        else (ctxRights gs c).queenSide) &&
       ! isInCheck bd c &&
       (if ts.file - fr.file > 0 then
          (!(bd fr.rank 5).isSome && !(bd fr.rank 6).isSome &&
           ! isSquareUnderAttack bd ⟨fr.rank, 5⟩ c.opp)
        else
          (!(bd fr.rank 1).isSome && !(bd fr.rank 2).isSome && !(bd fr.rank 3).isSome &&
           ! isSquareUnderAttack bd ⟨fr.rank, 3⟩ c.opp)))) ∧
    isLegalMoveAux 1 bd fr ts c .K dummyCtx = false := by
  have hone : ¬ ((ts.rank - fr.rank).natAbs ≤ 1 ∧ (ts.file - fr.file).natAbs ≤ 1) := by
    rintro ⟨_, h2⟩
    rw [hf] at h2
    omega
  have hnd : ¬ pieceHasColor (bd ts.rank ts.file) c = true := by
    rw [hdest]
    simp
  constructor
  · rw [isLegalMove]
    rw [show (2 : Nat) = 1 + 1 from rfl]
    rw [isLegalMoveAux]
    rw [if_neg hnd]
    simp only [if_neg hone, if_pos (⟨hr, hf⟩ :
      (ts.rank - fr.rank = 0 ∧ (ts.file - fr.file).natAbs = 2))]
    simp only [isInCheckWith_one, attackScanWith_one]
    by_cases hks : ts.file - fr.file > 0
    · simp only [if_pos hks]
      cases hr1 : (ctxRights gs c).kingSide
      · rw [if_pos ⟨hks, rfl⟩]
        simp
      · rw [if_neg (by rintro ⟨_, hcc⟩; exact absurd hcc (by simp))]
        rw [if_neg (by rintro ⟨hcc, _⟩; exact hcc hks)]
        cases hic : isInCheck bd c
        · rw [if_neg (by simp)]
          by_cases h56 : ((bd fr.rank 5).isSome = true ∨ (bd fr.rank 6).isSome = true)
          · rw [if_pos h56]
            rcases h56 with h5 | h6
            · simp [h5]
            · simp [h6]
          · rw [if_neg h56]
            push_neg at h56
            obtain ⟨h5, h6⟩ := h56
            simp only [ne_eq, Bool.not_eq_true] at h5 h6
            rcases Bool.eq_false_or_eq_true (isSquareUnderAttack bd ⟨fr.rank, 5⟩ c.opp)
              with hatt | hatt <;> simp [hatt, h5, h6]
        · rw [if_pos rfl]
          simp
    · simp only [if_neg hks]
      cases hr1 : (ctxRights gs c).queenSide
      · rw [if_neg (by rintro ⟨hcc, _⟩; exact hks hcc)]
        rw [if_pos ⟨hks, rfl⟩]
        simp
      · rw [if_neg (by rintro ⟨hcc, _⟩; exact hks hcc)]
        rw [if_neg (by rintro ⟨_, hcc⟩; exact absurd hcc (by simp))]
        cases hic : isInCheck bd c
        · rw [if_neg (by simp)]
          by_cases h123 : ((bd fr.rank 1).isSome = true ∨ (bd fr.rank 2).isSome = true ∨
              (bd fr.rank 3).isSome = true)
          · rw [if_pos h123]
            rcases h123 with h1 | h2 | h3
            · simp [h1]
            · simp [h2]
            · simp [h3]
          · rw [if_neg h123]
            push_neg at h123
            obtain ⟨h1, h2, h3⟩ := h123
            simp only [ne_eq, Bool.not_eq_true] at h1 h2 h3
            rcases Bool.eq_false_or_eq_true (isSquareUnderAttack bd ⟨fr.rank, 3⟩ c.opp)
              with hatt | hatt <;> simp [hatt, h1, h2, h3]
        · rw [if_pos rfl]
          simp
  · rw [show (1 : Nat) = 0 + 1 from rfl]
    rw [isLegalMoveAux]
    rw [if_neg hnd]
    simp only [if_neg hone, if_pos (⟨hr, hf⟩ :
      (ts.rank - fr.rank = 0 ∧ (ts.file - fr.file).natAbs = 2))]
    by_cases hks : ts.file - fr.file > 0
    · rw [if_pos ⟨hks, by cases c <;> rfl⟩]
    · rw [if_neg (by rintro ⟨hcc, _⟩; exact hks hcc)]
      rw [if_pos ⟨hks, by cases c <;> rfl⟩]

/-- Witness for the amended C7: ordinary white kingside castling with both
rights standing and no attackers is accepted. -/
theorem c7_amended_witness :
    isLegalMove boardC7w ⟨7, 4⟩ ⟨7, 6⟩ .w .K ctxC7 = true := by
  have h := (c7_amended boardC7w ⟨7, 4⟩ ⟨7, 6⟩ .w ctxC7 (by decide) (by decide) (by decide)).1
  rw [h]
  decide

/-- Helper: a rejection in the post-gate part of `submitMove` returns the
incoming state unchanged. -/
theorem submitFinish_reject_state (g : Game) (c : Color) (m : Move) (piece : Piece)
    (st : Game) (out : SubmitOutcome) (heq : submitFinish g c m piece = (st, out))
    (hrej : out.isReject = true) : st = g := by
  simp only [submitFinish] at heq
  split_ifs at heq <;>
    first
      | (split at heq <;> (injection heq with h1 h2; rw [← h2] at hrej; exact absurd hrej (by decide)))
      | (injection heq with h1 h2; exact h1.symm)
      | (injection heq with h1 h2; rw [← h2] at hrej; exact absurd hrej (by decide))

/-- Claim C9 as amended: every rejected `submitMove` submission (no piece at
source, wrong mover, repeated piece, illegal geometry, failed
still-in-check test) leaves the GameState unchanged EXCEPT that
`gameStarted` is set to true — the handler marks the game started before any
validation — and every rejected `promotePawn` request (invalid piece type,
no pending move, square mismatch, no pawn, wrong rank) leaves the GameState
entirely unchanged. -/
theorem c9_amended (g : Game) (c : Color) (m : Move) (st : Game) (out : SubmitOutcome)
    (g2 : Game) (c2 : Color) (sq : Sq) (pt : PType) (st2 : Game) (out2 : PromoteOutcome) :
    (submitMove g c m = (st, out) → out.isReject = true →
      st = { g with gameStarted := true }) ∧
    (promotePawn g2 c2 sq pt = (st2, out2) → out2.isReject = true → st2 = g2) := by
  constructor
  · intro heq hrej
    simp only [submitMove] at heq
    split at heq
    · injection heq with h1 h2
      exact h1.symm
    · split_ifs at heq <;>
        first
          | (exact submitFinish_reject_state _ _ _ _ _ _ heq hrej)
          | (injection heq with h1 h2; exact h1.symm)
  · intro heq hrej
    simp only [promotePawn] at heq
    split_ifs at heq <;>
      repeat' (first | (split at heq) | (split_ifs at heq))
    all_goals
      first
        | (injection heq with h1 h2; exact h1.symm)
        | (injection heq with h1 h2; rw [← h2] at hrej; exact absurd hrej (by decide))

/-- Witness for the amended C9: submitting from the empty square e4 of the
fresh game is rejected and changes only `gameStarted`; promoting to a king
is rejected and changes nothing. -/
theorem c9_amended_witness :
    (submitMove initialGame .w moveC9w).1 = { initialGame with gameStarted := true } ∧
    (promotePawn initialGame .w sqA1 .K).1 = initialGame := by
  constructor
  · exact (c9_amended initialGame .w moveC9w (submitMove initialGame .w moveC9w).1
      (submitMove initialGame .w moveC9w).2 initialGame .w sqA1 .K
      (promotePawn initialGame .w sqA1 .K).1 (promotePawn initialGame .w sqA1 .K).2).1
      rfl (by decide)
  · exact (c9_amended initialGame .w moveC9w (submitMove initialGame .w moveC9w).1
      (submitMove initialGame .w moveC9w).2 initialGame .w sqA1 .K
      (promotePawn initialGame .w sqA1 .K).1 (promotePawn initialGame .w sqA1 .K).2).2
      rfl (by decide)

/-- Claim C10 (confirmed): when the submitting color's stored check flag is
clear, `submitMove` accepts any geometrically legal, non-repeat,
non-promotion move — even one whose resulting position leaves the mover's
own king in check (hypothesis `hexp`), because the leaves-own-king-in-check
rejection runs only while the stored check flag is set. -/
theorem c10_accepts_selfcheck (g : Game) (c : Color) (m : Move) (piece : Piece)
    (hp : g.position m.fromSq.rank m.fromSq.file = some piece)
    (hc : piece.color = c)
    (hnc : inCheckOf g c = false)
    (hnr : ¬ lastMovedOf g c = some piece)
    (hleg : isLegalMove g.position m.fromSq m.toSq piece.color piece.ptype g.ctx = true)
    (hprom : (decide (piece.ptype = PType.P) &&
      ((decide (c = Color.w) && decide (m.toSq.rank = 0)) ||
       (decide (c = Color.b) && decide (m.toSq.rank = 7)))) = false)
    (hexp : isInCheck (setSq (setSq g.position m.fromSq.rank m.fromSq.file none)
      m.toSq.rank m.toSq.file (some piece)) c = true) :
    (submitMove g c m).2 = .accepted ∨ (submitMove g c m).2 = .resolved := by
  simp only [submitMove, lastMovedOf_started, inCheckOf_started, ctx_started]
  rw [hp]
  dsimp only
  rw [if_neg (fun hcc => hcc hc)]
  rw [if_neg hnr]
  rw [if_neg (show ¬ ((false : Bool) = true) by simp)]
  simp only [submitFinish]
  rw [ctx_started]
  rw [if_neg (show ¬ ¬ (isLegalMove g.position m.fromSq m.toSq piece.color piece.ptype
    (Game.ctx g) = true) from fun hcc => hcc hleg)]
  rw [inCheckOf_started]
  rw [if_neg (show ¬ (inCheckOf g c = true) by simp [hnc])]
  rw [if_neg (show ¬ ((false : Bool) = true) by simp)]
  rw [hprom]
  rw [if_neg (show ¬ ((false : Bool) = true) by simp)]
  split
  · right
    rfl
  · left
    rfl

/-- Witness for C10: white's bishop d2→e3 opens the d-file onto white's own
king (the resulting position is self-check) and is nevertheless accepted. -/
theorem c10_witness :
    isInCheck (setSq (setSq gameC10.position 6 3 none) 5 4 (some ⟨.w, .B, "1"⟩)) .w = true ∧
    ((submitMove gameC10 .w moveC10).2 = .accepted ∨
     (submitMove gameC10 .w moveC10).2 = .resolved) := by
  constructor
  · decide
  · exact c10_accepts_selfcheck gameC10 .w moveC10 ⟨.w, .B, "1"⟩ (by decide) (by decide)
      (by decide) (by decide) (by decide) (by decide) (by decide)

/-- Helper: the timer-flag update does not touch the position. -/
theorem checkTimerStatus_position (g : Game) :
    (checkTimerStatus g).position = g.position := by
  simp only [checkTimerStatus]
  split_ifs <;> rfl

/-- Helper: the timer-flag update does not touch white's pending move. -/
theorem checkTimerStatus_pendingWhite (g : Game) :
    (checkTimerStatus g).pendingWhite = g.pendingWhite := by
  simp only [checkTimerStatus]
  split_ifs <;> rfl

/-- Helper: the timer-flag update does not touch black's pending move. -/
theorem checkTimerStatus_pendingBlack (g : Game) :
    (checkTimerStatus g).pendingBlack = g.pendingBlack := by
  simp only [checkTimerStatus]
  split_ifs <;> rfl

/-- Helper: the timer-flag update does not touch white's castling rights. -/
theorem checkTimerStatus_castlingWhite (g : Game) :
    (checkTimerStatus g).castlingWhite = g.castlingWhite := by
  simp only [checkTimerStatus]
  split_ifs <;> rfl

/-- Helper: the timer-flag update does not touch black's castling rights. -/
theorem checkTimerStatus_castlingBlack (g : Game) :
    (checkTimerStatus g).castlingBlack = g.castlingBlack := by
  simp only [checkTimerStatus]
  split_ifs <;> rfl

/-- Helper: storing a pending move does not touch the position. -/
theorem setPending_position (g : Game) (c : Color) (m : Move) :
    (setPending g c m).position = g.position := by
  cases c <;> rfl

/-- Helper: storing a pending move does not touch white's castling rights. -/
theorem setPending_castlingWhite (g : Game) (c : Color) (m : Move) :
    (setPending g c m).castlingWhite = g.castlingWhite := by
  cases c <;> rfl

/-- Helper: storing a pending move does not touch black's castling rights. -/
theorem setPending_castlingBlack (g : Game) (c : Color) (m : Move) :
    (setPending g c m).castlingBlack = g.castlingBlack := by
  cases c <;> rfl

/-- Helper: white's pending move after a store. -/
theorem setPending_pendingWhite (g : Game) (c : Color) (m : Move) :
    (setPending g c m).pendingWhite =
      (if c = .w then some m else g.pendingWhite) := by
  cases c <;> simp [setPending]

/-- Helper: black's pending move after a store. -/
theorem setPending_pendingBlack (g : Game) (c : Color) (m : Move) :
    (setPending g c m).pendingBlack =
      (if c = .b then some m else g.pendingBlack) := by
  cases c <;> simp [setPending]

/-- Helper: the result computed by a round resolution depends only on the
pre-round position and castling rights, never on the previously stored
result. -/
theorem processMoves_gameResult_congr (g g2 : Game) (wM bM : Move)
    (hpos : g.position = g2.position)
    (hcw : g.castlingWhite = g2.castlingWhite)
    (hcb : g.castlingBlack = g2.castlingBlack) :
    (processMoves g wM bM).gameResult = (processMoves g2 wM bM).gameResult := by
  simp only [processMoves]
  rw [hpos, hcw, hcb]
  rfl

/-- Helper: the post-gate part of `submitMove` yields the same outcome, and
on resolution the same newly computed result, for two states agreeing on
position, legality context, check flag and pending moves — regardless of any
other field (in particular the stored game result). -/
theorem submitFinish_result_invariant (gA gB : Game) (c : Color) (m : Move) (piece : Piece)
    (hpos : gA.position = gB.position)
    (hctx : gA.ctx = gB.ctx)
    (hic : inCheckOf gA c = inCheckOf gB c)
    (hpw : gA.pendingWhite = gB.pendingWhite)
    (hpb : gA.pendingBlack = gB.pendingBlack) :
    (submitFinish gA c m piece).2 = (submitFinish gB c m piece).2 ∧
    ((submitFinish gA c m piece).2 = .resolved →
      (submitFinish gA c m piece).1.gameResult = (submitFinish gB c m piece).1.gameResult) := by
  have hcw : gA.castlingWhite = gB.castlingWhite := congrArg Ctx.castlingWhite hctx
  have hcb : gA.castlingBlack = gB.castlingBlack := congrArg Ctx.castlingBlack hctx
  simp only [submitFinish, hpos, hctx, hic,
    checkTimerStatus_pendingWhite, checkTimerStatus_pendingBlack,
    setSq, setPending_pendingWhite, setPending_pendingBlack, hpw, hpb]
  by_cases hleg : ¬ isLegalMove gB.position m.fromSq m.toSq piece.color piece.ptype gB.ctx = true
  · rw [if_pos hleg, if_pos hleg]
    exact ⟨rfl, fun hco => by simp at hco⟩
  · rw [if_neg hleg, if_neg hleg]
    by_cases hsc : (if inCheckOf gB c = true then
        isInCheck (setSq (setSq gB.position m.fromSq.rank m.fromSq.file none)
          m.toSq.rank m.toSq.file (some piece)) c else false) = true
    · rw [if_pos hsc, if_pos hsc]
      exact ⟨rfl, fun hco => by simp at hco⟩
    · rw [if_neg hsc, if_neg hsc]
      by_cases hpr : (decide (piece.ptype = PType.P) &&
          ((decide (c = Color.w) && decide (m.toSq.rank = 0)) ||
           (decide (c = Color.b) && decide (m.toSq.rank = 7)))) = true
      · rw [if_pos hpr, if_pos hpr]
        exact ⟨rfl, fun hco => by simp at hco⟩
      · rw [if_neg hpr, if_neg hpr]
        rcases hw1 : (if c = Color.w then some m else gB.pendingWhite) with _ | wv
        · exact ⟨rfl, fun hco => by simp at hco⟩
        · rcases hb1 : (if c = Color.b then some m else gB.pendingBlack) with _ | bv
          · exact ⟨rfl, fun hco => by simp at hco⟩
          · refine ⟨rfl, fun _ => ?_⟩
            exact processMoves_gameResult_congr _ _ wv bv
              (by simp [checkTimerStatus_position, setPending_position, hpos])
              (by simp [checkTimerStatus_castlingWhite, setPending_castlingWhite, hcw])
              (by simp [checkTimerStatus_castlingBlack, setPending_castlingBlack, hcb])

/-- Helper: the last-moved lookup ignores `gameStarted` and `gameResult`. -/
theorem lastMovedOf_mk (g : Game) (r : Option GameResult) (c : Color) :
    lastMovedOf { g with gameStarted := true, gameResult := r } c = lastMovedOf g c := by
  cases c <;> rfl

/-- Helper: the check-flag lookup ignores `gameStarted` and `gameResult`. -/
theorem inCheckOf_mk (g : Game) (r : Option GameResult) (c : Color) :
    inCheckOf { g with gameStarted := true, gameResult := r } c = inCheckOf g c := by
  cases c <;> rfl

/-- Helper: the legality context ignores `gameStarted` and `gameResult`. -/
theorem ctx_mk (g : Game) (r : Option GameResult) :
    Game.ctx { g with gameStarted := true, gameResult := r } = g.ctx := rfl

/-- Claim C8 as amended: a stored terminal result is not permanent — it does
not gate later submissions at all.  `submitMove` behaves identically
whatever result is stored: the outcome is independent of it, and when the
submission resolves a round, the freshly computed result that overwrites the
stored one is also independent of it (so a later round can change or clear
the stored result, as the counterexample shows concretely). -/
theorem c8_amended (g : Game) (c : Color) (m : Move) (r1 r2 : Option GameResult) :
    (submitMove { g with gameResult := r1 } c m).2
      = (submitMove { g with gameResult := r2 } c m).2 ∧
    ((submitMove { g with gameResult := r1 } c m).2 = .resolved →
      (submitMove { g with gameResult := r1 } c m).1.gameResult
        = (submitMove { g with gameResult := r2 } c m).1.gameResult) := by
  simp only [submitMove, lastMovedOf_mk, inCheckOf_mk, ctx_mk]
  rcases hsp : g.position m.fromSq.rank m.fromSq.file with _ | piece
  · exact ⟨rfl, fun hco => by simp at hco⟩
  · dsimp only
    by_cases hcc : ¬ piece.color = c
    · rw [if_pos hcc, if_pos hcc]
      exact ⟨rfl, fun hco => by simp at hco⟩
    · rw [if_neg hcc, if_neg hcc]
      by_cases hrb : (if lastMovedOf g c = some piece then
          ! (decide (piece.ptype = PType.K) && inCheckOf g c ||
             ! (if (decide (piece.ptype = PType.K) && inCheckOf g c) = true then false
                else hasOtherValidMoves g.position c piece g.ctx))
          else false) = true
      · rw [if_pos hrb, if_pos hrb]
        exact ⟨rfl, fun hco => by simp at hco⟩
      · rw [if_neg hrb, if_neg hrb]
        exact submitFinish_result_invariant _ _ c m piece rfl rfl (by cases c <;> rfl) rfl rfl

/-- Witness for the amended C8: black's d8→d7 submission on the two-king
game resolves identically whether `whiteWins` or nothing is stored, and the
recomputed result agrees. -/
theorem c8_amended_witness :
    (submitMove { gameC8 with gameResult := some .whiteWins } .b moveC8black).2
      = (submitMove { gameC8 with gameResult := none } .b moveC8black).2 ∧
    (submitMove { gameC8 with gameResult := some .whiteWins } .b moveC8black).1.gameResult
      = (submitMove { gameC8 with gameResult := none } .b moveC8black).1.gameResult := by
  have h := c8_amended gameC8 .b moveC8black (some .whiteWins) none
  exact ⟨h.1, h.2 (by decide)⟩
